import Mathlib

/- Shallow embedding of the devbox-sdk agent server (packages/server-rust).
   Rust `String`/`&str` values that the code iterates over are modelled as
   lists of characters (`Str`); byte indexing in the source only ever occurs
   at ASCII prefix boundaries, where char positions and byte positions agree. -/

abbrev Str := List Char

def str (s : String) : Str := s.data

/- ===================== src/utils/path.rs ===================== -/

/- `std::path::Component` on Unix (the `Prefix` variant cannot occur). -/
inductive PathComponent where
  | rootDir
  | curDir
  | parentDir
  | normal (name : Str)
deriving DecidableEq, BEq, Repr

/- Split on '/' keeping no empty pieces, as `Path::components` does between
   separators. -/
def splitSlash (s : Str) : List Str :=
  s.foldr
    (fun c acc =>
      if c = '/' then [] :: acc
      else
        match acc with
        | [] => [[c]]
        | w :: ws => (c :: w) :: ws)
    []

/- The component sequence of a Unix path string, as produced by
   `Path::components`: a leading `/` yields `RootDir`, `.` yields `CurDir`,
   `..` yields `ParentDir`, everything else `Normal`.  (Rust drops interior
   `CurDir` components already during iteration; we keep them, and
   `normalize_path` below ignores them, which yields the same results.) -/
def parseComponents (path : Str) : List PathComponent :=
  let parts := (splitSlash path).filter (· ≠ [])
  let root : List PathComponent :=
    match path with
    | '/' :: _ => [PathComponent.rootDir]
    | _ => []
  root ++ parts.map (fun p =>
    if p = str "." then PathComponent.curDir
    else if p = str ".." then PathComponent.parentDir
    else PathComponent.normal p)

/- `Path::is_absolute` on Unix: the path starts with `/`. -/
def isAbsolute (path : Str) : Bool :=
  match path with
  | '/' :: _ => true
  | _ => false

/- `PathBuf::pop`: truncate to the parent path; a lone root (or an empty
   path) has no parent, so popping it is a no-op. -/
def pathBufPop (pb : List PathComponent) : List PathComponent :=
  match pb.getLast? with
  | some (PathComponent.normal _) => pb.dropLast
  | _ => pb

/- `normalize_path` from src/utils/path.rs: fold over the components,
   pushing normals, skipping `.`, popping on `..`.  `PathBuf::push` of the
   root directory replaces the accumulated path, exactly as in Rust. -/
def normalize_path (path : List PathComponent) : List PathComponent :=
  path.foldl
    (fun ret c =>
      match c with
      | PathComponent.rootDir => [PathComponent.rootDir]
      | PathComponent.curDir => ret
      | PathComponent.parentDir => pathBufPop ret
      | PathComponent.normal s => ret ++ [PathComponent.normal s])
    []

/- Render a (normalized) component list back to the path string `PathBuf`
   displays: `/`-joined names with a leading `/` when rooted. -/
def renderPath (pb : List PathComponent) : Str :=
  let names := fun (l : List PathComponent) =>
    List.intercalate (str "/")
      (l.map (fun c =>
        match c with
        | PathComponent.normal n => n
        | _ => []))
  match pb with
  | PathComponent.rootDir :: rest => '/' :: names rest
  | _ => names pb

/- `validate_path` from src/utils/path.rs.  The Rust function returns
   `Result<PathBuf, AppError>` but has no error path; we model the value.
   An absolute user path is normalized and returned as-is (the workspace
   root is ignored); a relative one is joined to the workspace root first;
   an empty normalization becomes `.`. -/
def validate_path (base_path : Str) (user_path : Str) : Str :=
  if isAbsolute user_path then
    let normalized := renderPath (normalize_path (parseComponents user_path))
    if normalized = [] then str "." else normalized
  else
    let full_path := parseComponents base_path ++ parseComponents user_path
    let normalized := renderPath (normalize_path full_path)
    if normalized = [] then str "." else normalized

/- "p is within or equal to root", read textually on components. -/
def pathWithinOrEq (root p : Str) : Bool :=
  (parseComponents root).isPrefixOf (parseComponents p)

/- The normalization `validate_path` computes before its empty-path check. -/
def normalizedResult (base user : Str) : Str :=
  if isAbsolute user then renderPath (normalize_path (parseComponents user))
  else renderPath (normalize_path (parseComponents base ++ parseComponents user))

/- ===================== theorems: C3, C4 ===================== -/

/-- C3 (counterexample): the claim "validate_path applied to the workspace
root and the user path `..` returns a path that is within or equal to the
workspace root" is false: at the default workspace root
`/home/devbox/project`, `validate_path` returns `/home/devbox`, the parent
of the workspace root, which is not within or equal to it. -/
theorem C3_counterexample_dotdot_escapes_workspace :
    validate_path (str "/home/devbox/project") (str "..") = str "/home/devbox"
    ∧ pathWithinOrEq (str "/home/devbox/project")
        (validate_path (str "/home/devbox/project") (str "..")) = false := by
  decide

/-- C3 (amended): `validate_path(base, "..")` returns the textual parent of
the normalized workspace root (popping its last component), `.` if that
parent is empty; in particular for the default workspace root it returns
`/home/devbox`, which lies outside the workspace. -/
theorem C3_validate_dotdot_is_parent :
    (∀ base : Str,
      validate_path base (str "..") =
        (if renderPath (pathBufPop (normalize_path (parseComponents base))) = []
         then str "."
         else renderPath (pathBufPop (normalize_path (parseComponents base)))))
    ∧ validate_path (str "/home/devbox/project") (str "..") = str "/home/devbox" := by
  constructor
  · intro base
    have habs : isAbsolute (str "..") = false := rfl
    have hparse : parseComponents (str "..") = [PathComponent.parentDir] := rfl
    simp only [validate_path, habs, hparse, Bool.false_eq_true, if_false,
      normalize_path, List.foldl_append, List.foldl_cons, List.foldl_nil]
  · decide

/-- C4: for every absolute user path, `validate_path` ignores the workspace
root entirely and returns the textual normalization of the user path; for
every input whose normalization is empty it returns `.`. -/
theorem C4_validate_absolute_is_textual_normalization :
    (∀ base base' user : Str, isAbsolute user = true →
        validate_path base user = validate_path base' user)
    ∧ (∀ base user : Str, isAbsolute user = true →
        validate_path base user =
          (if renderPath (normalize_path (parseComponents user)) = []
           then str "."
           else renderPath (normalize_path (parseComponents user))))
    ∧ (∀ base user : Str, normalizedResult base user = [] →
        validate_path base user = str ".") := by
  refine ⟨?_, ?_, ?_⟩
  · intro base base' user h
    simp only [validate_path, h, if_true]
  · intro base user h
    simp only [validate_path, h, if_true]
  · intro base user h
    by_cases habs : isAbsolute user = true
    · have h' : renderPath (normalize_path (parseComponents user)) = [] := by
        simpa [normalizedResult, habs] using h
      simp only [validate_path, habs, if_true, h', if_pos rfl]
    · have habs' : isAbsolute user = false := by
        cases hb : isAbsolute user
        · rfl
        · exact absurd hb habs
      have h' : renderPath (normalize_path (parseComponents base ++ parseComponents user)) = [] := by
        simpa [normalizedResult, habs'] using h
      simp [validate_path, habs', h']

/-- C4 (witness): instantiates each conjunct of the C4 theorem at concrete
inputs, discharging the hypotheses there. -/
theorem C4_witness :
    (validate_path (str "/a") (str "/etc/passwd")
        = validate_path (str "/b") (str "/etc/passwd"))
    ∧ (validate_path (str "/a") (str "/etc/passwd") =
        (if renderPath (normalize_path (parseComponents (str "/etc/passwd"))) = []
         then str "."
         else renderPath (normalize_path (parseComponents (str "/etc/passwd")))))
    ∧ validate_path (str "") (str "..") = str "." :=
  ⟨C4_validate_absolute_is_textual_normalization.1 (str "/a") (str "/b")
      (str "/etc/passwd") (by decide),
   C4_validate_absolute_is_textual_normalization.2.1 (str "/a")
      (str "/etc/passwd") (by decide),
   C4_validate_absolute_is_textual_normalization.2.2 (str "") (str "..")
      (by decide)⟩

/- ===================== src/handlers/websocket.rs : parse_log_entry ===================== -/

/- `parse_log_entry` from src/handlers/websocket.rs: derive (level, content)
   from a raw ring line.  The Rust byte slices `raw_log[9..]`, `[7..]`,
   `[5..]` cut exactly after the matched ASCII prefix, i.e. `List.drop` of
   the prefix length. -/
def parse_log_entry (raw_log : Str) : String × Str :=
  if (str "[stdout] ").isPrefixOf raw_log then ("stdout", raw_log.drop 9)
  else if (str "[stderr] ").isPrefixOf raw_log then ("stderr", raw_log.drop 9)
  else if (str "[system] ").isPrefixOf raw_log then ("system", raw_log.drop 9)
  else if (str "[exec] ").isPrefixOf raw_log then
    ("system", str "Executing: " ++ raw_log.drop 7)
  else if (str "[cd] ").isPrefixOf raw_log then
    ("system", str "Changed directory to: " ++ raw_log.drop 5)
  else ("unknown", raw_log)

theorem isPrefixOf_self_append (p s : Str) : p.isPrefixOf (p ++ s) = true := by
  rw [List.isPrefixOf_iff_prefix]
  exact List.prefix_append p s

theorem isPrefixOf_append_eq_false :
    ∀ (a b s : Str), a.isPrefixOf b = false → b.isPrefixOf a = false →
      a.isPrefixOf (b ++ s) = false := by
  intro a
  induction a with
  | nil => intro b s h1 _; simp [List.isPrefixOf] at h1
  | cons x xs ih =>
    intro b s h1 h2
    cases b with
    | nil => simp [List.isPrefixOf] at h2
    | cons y ys =>
      simp only [List.cons_append, List.isPrefixOf] at h1 h2 ⊢
      rcases hxy : (x == y) with _ | _
      · simp [hxy]
      · have hyx : (y == x) = true := by
          have := eq_of_beq hxy; subst this; exact beq_self_eq_true x
        simp only [hxy, Bool.true_and] at h1
        simp only [hyx, Bool.true_and] at h2
        simp [hxy, ih ys s h1 h2]

/-- C5: level/content derivation from a raw ring line: `[stdout] `,
`[stderr] `, `[system] ` prefixes yield that level with the remainder as
content; `[exec] X` yields system/`Executing: X`; `[cd] X` yields
system/`Changed directory to: X`; any other line yields unknown with the
raw line as content. -/
theorem C5_parse_log_entry_spec :
    (∀ s : Str, parse_log_entry (str "[stdout] " ++ s) = ("stdout", s))
    ∧ (∀ s : Str, parse_log_entry (str "[stderr] " ++ s) = ("stderr", s))
    ∧ (∀ s : Str, parse_log_entry (str "[system] " ++ s) = ("system", s))
    ∧ (∀ s : Str, parse_log_entry (str "[exec] " ++ s)
        = ("system", str "Executing: " ++ s))
    ∧ (∀ s : Str, parse_log_entry (str "[cd] " ++ s)
        = ("system", str "Changed directory to: " ++ s))
    ∧ (∀ raw : Str,
        (str "[stdout] ").isPrefixOf raw = false →
        (str "[stderr] ").isPrefixOf raw = false →
        (str "[system] ").isPrefixOf raw = false →
        (str "[exec] ").isPrefixOf raw = false →
        (str "[cd] ").isPrefixOf raw = false →
        parse_log_entry raw = ("unknown", raw)) := by
  have hdrop9 : ∀ (p s : Str), p.length = 9 → (p ++ s).drop 9 = s := by
    intro p s hp; rw [← hp, List.drop_left]
  have hdrop7 : ∀ (p s : Str), p.length = 7 → (p ++ s).drop 7 = s := by
    intro p s hp; rw [← hp, List.drop_left]
  have hdrop5 : ∀ (p s : Str), p.length = 5 → (p ++ s).drop 5 = s := by
    intro p s hp; rw [← hp, List.drop_left]
  refine ⟨?_, ?_, ?_, ?_, ?_, ?_⟩
  · intro s
    simp [parse_log_entry, isPrefixOf_self_append, hdrop9 (str "[stdout] ") s (by decide)]
  · intro s
    simp [parse_log_entry, isPrefixOf_self_append,
      isPrefixOf_append_eq_false (str "[stdout] ") (str "[stderr] ") s
        (by decide) (by decide),
      hdrop9 (str "[stderr] ") s (by decide)]
  · intro s
    simp [parse_log_entry, isPrefixOf_self_append,
      isPrefixOf_append_eq_false (str "[stdout] ") (str "[system] ") s
        (by decide) (by decide),
      isPrefixOf_append_eq_false (str "[stderr] ") (str "[system] ") s
        (by decide) (by decide),
      hdrop9 (str "[system] ") s (by decide)]
  · intro s
    simp [parse_log_entry, isPrefixOf_self_append,
      isPrefixOf_append_eq_false (str "[stdout] ") (str "[exec] ") s
        (by decide) (by decide),
      isPrefixOf_append_eq_false (str "[stderr] ") (str "[exec] ") s
        (by decide) (by decide),
      isPrefixOf_append_eq_false (str "[system] ") (str "[exec] ") s
        (by decide) (by decide),
      hdrop7 (str "[exec] ") s (by decide)]
  · intro s
    simp [parse_log_entry, isPrefixOf_self_append,
      isPrefixOf_append_eq_false (str "[stdout] ") (str "[cd] ") s
        (by decide) (by decide),
      isPrefixOf_append_eq_false (str "[stderr] ") (str "[cd] ") s
        (by decide) (by decide),
      isPrefixOf_append_eq_false (str "[system] ") (str "[cd] ") s
        (by decide) (by decide),
      isPrefixOf_append_eq_false (str "[exec] ") (str "[cd] ") s
        (by decide) (by decide),
      hdrop5 (str "[cd] ") s (by decide)]
  · intro raw h1 h2 h3 h4 h5
    simp [parse_log_entry, h1, h2, h3, h4, h5]

/-- C5 (witness): the unmatched-prefix case of the C5 theorem at the
concrete line `hello`. -/
theorem C5_witness : parse_log_entry (str "hello") = ("unknown", str "hello") :=
  C5_parse_log_entry_spec.2.2.2.2.2 (str "hello") (by decide) (by decide)
    (by decide) (by decide) (by decide)

/- ===================== src/handlers/process.rs : pump_log ring ===================== -/

def MAX_LOG_LINES : Nat := 10000

/- The body of the `pump_log` loop acting on the record's log ring
   (src/handlers/process.rs): when the ring is full, `pop_front` the head,
   then `push_back` the new entry.  The session pumps in
   src/handlers/session.rs repeat the identical code. -/
def ringAppend (logs : List Str) (log_entry : Str) : List Str :=
  (if logs.length ≥ MAX_LOG_LINES then logs.tail else logs) ++ [log_entry]

/- Appending a whole sequence of captured lines, one loop iteration each. -/
def pumpAll (logs : List Str) (lines : List Str) : List Str :=
  lines.foldl ringAppend logs

theorem max_log_lines_pos : 0 < MAX_LOG_LINES := by decide

theorem ringAppend_length_le (logs : List Str) (e : Str)
    (h : logs.length ≤ MAX_LOG_LINES) :
    (ringAppend logs e).length ≤ MAX_LOG_LINES := by
  unfold ringAppend
  by_cases hge : logs.length ≥ MAX_LOG_LINES
  · rw [if_pos hge]
    simp only [List.length_append, List.length_tail, List.length_cons,
      List.length_nil]
    have := max_log_lines_pos
    omega
  · rw [if_neg hge]
    simp only [List.length_append, List.length_cons, List.length_nil]
    omega

theorem pumpAll_length_le (lines : List Str) :
    ∀ logs : List Str, logs.length ≤ MAX_LOG_LINES →
      (pumpAll logs lines).length ≤ MAX_LOG_LINES := by
  induction lines with
  | nil => intro logs h; simpa [pumpAll] using h
  | cons e rest ih =>
    intro logs h
    have hstep : pumpAll logs (e :: rest) = pumpAll (ringAppend logs e) rest := rfl
    rw [hstep]
    exact ih _ (ringAppend_length_le logs e h)

theorem pumpAll_eq_drop (lines : List Str) :
    ∀ logs : List Str, logs.length ≤ MAX_LOG_LINES →
      pumpAll logs lines =
        (logs ++ lines).drop (logs.length + lines.length - MAX_LOG_LINES) := by
  induction lines with
  | nil =>
    intro logs h
    have hz : logs.length - MAX_LOG_LINES = 0 := by omega
    simp [pumpAll, hz]
  | cons e rest ih =>
    intro logs h
    have hstep : pumpAll logs (e :: rest) = pumpAll (ringAppend logs e) rest := rfl
    rw [hstep, ih _ (ringAppend_length_le logs e h)]
    by_cases hge : logs.length ≥ MAX_LOG_LINES
    · have hlen : logs.length = MAX_LOG_LINES := le_antisymm h hge
      cases logs with
      | nil =>
        exfalso
        have := max_log_lines_pos
        simp only [List.length_nil] at hlen
        omega
      | cons a t =>
        have ht : t.length + 1 = MAX_LOG_LINES := by
          simpa using hlen
        have hra : ringAppend (a :: t) e = t ++ [e] := by
          unfold ringAppend
          rw [if_pos hge]
          rfl
        rw [hra]
        have idx1 : (t ++ [e]).length + rest.length - MAX_LOG_LINES = rest.length := by
          simp only [List.length_append, List.length_cons, List.length_nil]
          omega
        have idx2 : (a :: t).length + (e :: rest).length - MAX_LOG_LINES
            = rest.length + 1 := by
          simp only [List.length_cons]
          omega
        rw [idx1, idx2]
        simp [List.append_assoc]
    · have hra : ringAppend logs e = logs ++ [e] := by
        unfold ringAppend
        rw [if_neg hge]
      rw [hra]
      have idx : (logs ++ [e]).length + rest.length - MAX_LOG_LINES
          = logs.length + (e :: rest).length - MAX_LOG_LINES := by
        simp only [List.length_append, List.length_cons, List.length_nil]
        omega
      rw [idx]
      simp [List.append_assoc]

/-- C6: the log ring never exceeds 10 000 entries; appending to a full ring
evicts the head; after appending N > 10 000 lines to an empty ring, the
ring holds exactly the last 10 000 lines and the evicted lines are
precisely the first N − 10 000 appended. -/
theorem C6_log_ring_bounded_and_evicts :
    (∀ logs lines : List Str, logs.length ≤ MAX_LOG_LINES →
        (pumpAll logs lines).length ≤ MAX_LOG_LINES)
    ∧ (∀ (logs : List Str) (e : Str), logs.length = MAX_LOG_LINES →
        ringAppend logs e = logs.tail ++ [e])
    ∧ (∀ lines : List Str, lines.length > MAX_LOG_LINES →
        pumpAll [] lines = lines.drop (lines.length - MAX_LOG_LINES)
        ∧ lines.take (lines.length - MAX_LOG_LINES) ++ pumpAll [] lines = lines) := by
  refine ⟨?_, ?_, ?_⟩
  · intro logs lines h
    exact pumpAll_length_le lines logs h
  · intro logs e h
    simp [ringAppend, h]
  · intro lines h
    have hd : pumpAll [] lines = lines.drop (lines.length - MAX_LOG_LINES) := by
      have := pumpAll_eq_drop lines [] (by simp)
      simpa using this
    refine ⟨hd, ?_⟩
    rw [hd]
    exact List.take_append_drop _ lines

/-- C6 (witness): the C6 theorem instantiated at concrete rings and lines
with its hypotheses discharged: a short pump stays bounded, a full ring of
10 000 entries evicts its head, and pumping 10 001 lines into an empty ring
keeps the last 10 000 with the first line evicted. -/
theorem C6_witness :
    (pumpAll [] (List.replicate 3 (str "a"))).length ≤ MAX_LOG_LINES
    ∧ ringAppend (List.replicate 10000 (str "a")) (str "b")
        = (List.replicate 10000 (str "a")).tail ++ [str "b"]
    ∧ (pumpAll [] (List.replicate 10001 (str "x"))
        = (List.replicate 10001 (str "x")).drop
            ((List.replicate 10001 (str "x")).length - MAX_LOG_LINES)
      ∧ (List.replicate 10001 (str "x")).take
            ((List.replicate 10001 (str "x")).length - MAX_LOG_LINES)
          ++ pumpAll [] (List.replicate 10001 (str "x"))
        = List.replicate 10001 (str "x")) :=
  ⟨C6_log_ring_bounded_and_evicts.1 [] (List.replicate 3 (str "a"))
     (by rw [List.length_nil]; exact Nat.zero_le _),
   C6_log_ring_bounded_and_evicts.2.1 (List.replicate 10000 (str "a")) (str "b")
     (by rw [List.length_replicate]; rfl),
   C6_log_ring_bounded_and_evicts.2.2 (List.replicate 10001 (str "x"))
     (by rw [List.length_replicate]; decide)⟩

/- ===================== src/handlers/websocket.rs : subscription events ===================== -/

structure LogEvent where
  level : String
  content : Str
  sequence : Nat
  is_history : Bool
deriving DecidableEq, Repr

/- The skip condition in both loops:
   `!levels.is_empty() && !levels.contains(&level)`. -/
def levelFiltered (levels : List String) (level : String) : Bool :=
  !levels.isEmpty && !levels.contains level

/- The historical-replay loop body of `handle_socket`'s subscribe branch:
   `for (i, log) in logs.iter().skip(start_idx).enumerate()`, emitting
   `sequence: i` with `isHistory: true`.  Note the enumerate index advances
   on filtered-out entries too. -/
def historyEventsAux (levels : List String) : Nat → List Str → List LogEvent
  | _, [] => []
  | i, log :: rest =>
    let lc := parse_log_entry log
    if levelFiltered levels lc.1 then historyEventsAux levels (i + 1) rest
    else ⟨lc.1, lc.2, i, true⟩ :: historyEventsAux levels (i + 1) rest

/- The historical replay, guarded by `tail > 0`, over the last `tail` ring
   entries (`start_idx = logs.len() - tail` when the ring is longer). -/
def historyEvents (logs : List Str) (tail : Nat) (levels : List String) :
    List LogEvent :=
  if tail > 0 then
    let start_idx := if logs.length > tail then logs.length - tail else 0
    historyEventsAux levels 0 (logs.drop start_idx)
  else []

/- The spawned live-consumer loop: `let mut sequence = 0`, emit with
   `isHistory: false`, `sequence += 1` only after an emitted event
   (the filter `continue`s before the increment). -/
def liveEventsAux (levels : List String) : Nat → List Str → List LogEvent
  | _, [] => []
  | seq, log :: rest =>
    let lc := parse_log_entry log
    if levelFiltered levels lc.1 then liveEventsAux levels seq rest
    else ⟨lc.1, lc.2, seq, false⟩ :: liveEventsAux levels (seq + 1) rest

def liveEvents (levels : List String) (lines : List Str) : List LogEvent :=
  liveEventsAux levels 0 lines

/- All log events one subscription emits to the socket: the historical
   replay is sent while the subscribe message is handled, before the live
   consumer task is spawned and attached to the broadcaster, so every
   historical event precedes every live event; `liveLines` are the lines
   the broadcaster delivers to that consumer afterwards. -/
def subscriptionEvents (logs : List Str) (tail : Nat) (levels : List String)
    (liveLines : List Str) : List LogEvent :=
  historyEvents logs tail levels ++ liveEvents levels liveLines

theorem historyEventsAux_all_history (levels : List String) :
    ∀ (l : List Str) (i : Nat),
      (historyEventsAux levels i l).all (fun e => e.is_history) = true := by
  intro l
  induction l with
  | nil => intro i; rfl
  | cons log rest ih =>
    intro i
    unfold historyEventsAux
    by_cases hf : levelFiltered levels (parse_log_entry log).1 = true
    · simp only [hf, if_true]
      exact ih (i + 1)
    · simp only [hf, Bool.false_eq_true, if_false, List.all_cons,
        Bool.and_eq_true]
      exact ⟨trivial, ih (i + 1)⟩

theorem historyEventsAux_seq_ge (levels : List String) :
    ∀ (l : List Str) (i : Nat) (e : LogEvent),
      e ∈ historyEventsAux levels i l → i ≤ e.sequence := by
  intro l
  induction l with
  | nil => intro i e h; simp [historyEventsAux] at h
  | cons log rest ih =>
    intro i e h
    unfold historyEventsAux at h
    by_cases hf : levelFiltered levels (parse_log_entry log).1 = true
    · simp only [hf, if_true] at h
      exact Nat.le_of_succ_le (ih (i + 1) e h)
    · simp only [hf, Bool.false_eq_true, if_false, List.mem_cons] at h
      rcases h with rfl | h
      · exact Nat.le_refl i
      · exact Nat.le_of_succ_le (ih (i + 1) e h)

theorem historyEventsAux_chain (levels : List String) :
    ∀ (l : List Str) (i : Nat),
      List.Chain' (· < ·)
        ((historyEventsAux levels i l).map LogEvent.sequence) := by
  intro l
  induction l with
  | nil => intro i; simp [historyEventsAux]
  | cons log rest ih =>
    intro i
    unfold historyEventsAux
    by_cases hf : levelFiltered levels (parse_log_entry log).1 = true
    · simp only [hf, if_true]
      exact ih (i + 1)
    · simp only [hf, Bool.false_eq_true, if_false, List.map_cons]
      rw [List.chain'_cons']
      refine ⟨?_, ih (i + 1)⟩
      intro y hy
      have hmem : y ∈ (historyEventsAux levels (i + 1) rest).map LogEvent.sequence :=
        List.mem_of_mem_head? hy
      rcases List.mem_map.mp hmem with ⟨e, he, rfl⟩
      exact Nat.lt_of_succ_le (historyEventsAux_seq_ge levels rest (i + 1) e he)

theorem liveEventsAux_all_live (levels : List String) :
    ∀ (l : List Str) (s : Nat),
      (liveEventsAux levels s l).all (fun e => !e.is_history) = true := by
  intro l
  induction l with
  | nil => intro s; rfl
  | cons log rest ih =>
    intro s
    unfold liveEventsAux
    by_cases hf : levelFiltered levels (parse_log_entry log).1 = true
    · simp only [hf, if_true]
      exact ih s
    · simp only [hf, Bool.false_eq_true, if_false, List.all_cons,
        Bool.and_eq_true]
      exact ⟨rfl, ih (s + 1)⟩

theorem liveEventsAux_seq_range (levels : List String) :
    ∀ (l : List Str) (s : Nat),
      (liveEventsAux levels s l).map LogEvent.sequence
        = List.range' s (liveEventsAux levels s l).length := by
  intro l
  induction l with
  | nil => intro s; rfl
  | cons log rest ih =>
    intro s
    unfold liveEventsAux
    by_cases hf : levelFiltered levels (parse_log_entry log).1 = true
    · simp only [hf, if_true]
      exact ih s
    · simp only [hf, Bool.false_eq_true, if_false, List.map_cons,
        List.length_cons]
      rw [List.range'_succ, ih (s + 1)]

/-- C1 (counterexample): the claim that emitted sequence values form one
strictly increasing counter from 0 shared by historical and live events is
false: with one `[stdout]` ring line replayed as history (tail 1, no level
filter) followed by one live `[stdout]` line, the subscription emits
sequences `[0, 0]` — the live consumer restarts its counter at 0 instead of
continuing after the history. -/
theorem C1_counterexample_live_counter_restarts :
    (subscriptionEvents [str "[stdout] a"] 1 [] [str "[stdout] b"]).map
        LogEvent.sequence = [0, 0]
    ∧ (subscriptionEvents [str "[stdout] a"] 1 [] [str "[stdout] b"]).map
        LogEvent.sequence
      ≠ List.range
          (subscriptionEvents [str "[stdout] a"] 1 [] [str "[stdout] b"]).length := by
  constructor <;> decide

/-- C1 (amended): within one subscription all historical events precede all
live events; historical sequences are the enumerate indices of the tail
window (strictly increasing, though filtered-out entries still consume
indices); live events carry an independent counter that starts at 0 and
increments exactly once per emitted live event. -/
theorem C1_sequences_history_then_live :
    ∀ (logs : List Str) (tail : Nat) (levels : List String)
      (liveLines : List Str),
      subscriptionEvents logs tail levels liveLines
        = historyEvents logs tail levels ++ liveEvents levels liveLines
      ∧ (historyEvents logs tail levels).all (fun e => e.is_history) = true
      ∧ (liveEvents levels liveLines).all (fun e => !e.is_history) = true
      ∧ List.Chain' (· < ·)
          ((historyEvents logs tail levels).map LogEvent.sequence)
      ∧ (liveEvents levels liveLines).map LogEvent.sequence
          = List.range (liveEvents levels liveLines).length := by
  intro logs tail levels liveLines
  refine ⟨rfl, ?_, ?_, ?_, ?_⟩
  · unfold historyEvents
    by_cases ht : tail > 0
    · simp only [ht, if_true]
      exact historyEventsAux_all_history levels _ 0
    · simp [ht]
  · exact liveEventsAux_all_live levels liveLines 0
  · unfold historyEvents
    by_cases ht : tail > 0
    · simp only [ht, if_true]
      exact historyEventsAux_chain levels _ 0
    · simp [ht]
  · rw [List.range_eq_range']
    exact liveEventsAux_seq_range levels liveLines 0

/- ===================== src/handlers/websocket.rs : socket subscription state ===================== -/

/- One spawned live-consumer task (the `tokio::spawn` in the subscribe
   branch), identified by its subscription key "type:targetId" and its
   level filter.  The source never aborts these tasks on unsubscribe, only
   when the whole socket goes away. -/
structure ConsumerTask where
  key : String
  levels : List String
deriving DecidableEq, Repr

/- The per-socket state of `handle_socket`: the `active_subscriptions` map
   keys and the set of consumer tasks spawned so far. -/
structure SocketState where
  active_subscriptions : List String
  consumer_tasks : List ConsumerTask
deriving DecidableEq, Repr

def emptySocket : SocketState := ⟨[], []⟩

/- Subscribe with the target present in the registry: reject a duplicate
   key, otherwise spawn a consumer task and record the subscription. -/
def ws_subscribe (st : SocketState) (key : String) (levels : List String) :
    SocketState × Bool :=
  if st.active_subscriptions.contains key then (st, false)
  else
    ({ active_subscriptions := key :: st.active_subscriptions,
       consumer_tasks := ⟨key, levels⟩ :: st.consumer_tasks }, true)

/- Unsubscribe: `active_subscriptions.remove(&sub_key)` and a confirmation;
   no consumer task is cancelled (the source's own comments note that the
   spawned task keeps receiving logs after an unsubscribe). -/
def ws_unsubscribe (st : SocketState) (key : String) : SocketState × Bool :=
  if st.active_subscriptions.contains key then
    ({ st with
        active_subscriptions :=
          st.active_subscriptions.filter (fun k => !(k == key)) },
     true)
  else (st, false)

/- A live line published on the broadcaster of target `key`: every spawned
   consumer task attached to that target forwards a log event to the
   socket's send queue (unless its level filter skips the line). -/
def ws_live_emit (st : SocketState) (key : String) (line : Str) :
    List LogEvent :=
  st.consumer_tasks.filterMap (fun c =>
    if c.key == key then
      let lc := parse_log_entry line
      if levelFiltered c.levels lc.1 then none
      else some ⟨lc.1, lc.2, 0, false⟩
    else none)

/-- C9: evaluates the code at the failing input: subscribing to
`process:p1`, then successfully unsubscribing (confirmation `true`, local
subscription removed), a subsequent live line for `process:p1` is still
forwarded to the socket — the consumer task spawned at subscribe time is
never cancelled, contradicting the claim that no further live events are
emitted after unsubscribe. -/
theorem C9_unsubscribed_consumer_still_emits :
    ((ws_unsubscribe (ws_subscribe emptySocket "process:p1" []).1
        "process:p1").2 = true)
    ∧ ((ws_unsubscribe (ws_subscribe emptySocket "process:p1" []).1
        "process:p1").1.active_subscriptions = [])
    ∧ ws_live_emit
        (ws_unsubscribe (ws_subscribe emptySocket "process:p1" []).1
          "process:p1").1
        "process:p1" (str "[stdout] hi")
        = [⟨"stdout", str "hi", 0, false⟩] := by
  refine ⟨?_, ?_, ?_⟩ <;> decide

/- ===================== src/response.rs, src/error.rs ===================== -/

/- `Status` from src/response.rs with its wire codes. -/
inductive Status where
  | Success
  | Panic
  | ValidationError
  | NotFound
  | Unauthorized
  | Forbidden
  | InvalidRequest
  | InternalError
  | Conflict
  | OperationError
deriving DecidableEq, Repr

def Status.code : Status → Nat
  | .Success => 0
  | .Panic => 500
  | .ValidationError => 1400
  | .NotFound => 1404
  | .Unauthorized => 1401
  | .Forbidden => 1403
  | .InvalidRequest => 1422
  | .InternalError => 1500
  | .Conflict => 1409
  | .OperationError => 1600

/- `SyncExecutionResponse` from src/handlers/process.rs (camelCased on the
   wire); timestamps are carried opaquely. -/
structure SyncExecutionResponse where
  stdout : String
  stderr : String
  exit_code : Option Int
  duration_ms : Nat
  start_time : String
  end_time : String
deriving DecidableEq, Repr

/- `AppError` from src/error.rs.  `OperationError` carries a
   `serde_json::Value` payload in Rust; the only structured payload the
   claims exercise is the sync-exec response, so it is typed as that. -/
inductive AppError where
  | InternalServerError (msg : String)
  | BadRequest (msg : String)
  | NotFound (msg : String)
  | Unauthorized (msg : String)
  | Forbidden (msg : String)
  | Conflict (msg : String)
  | Validation (msg : String)
  | OperationError (msg : String) (data : SyncExecutionResponse)
deriving DecidableEq, Repr

/- The status an `AppError` maps to in `IntoResponse for AppError`. -/
def AppError.status : AppError → Status
  | .InternalServerError _ => .InternalError
  | .BadRequest _ => .InvalidRequest
  | .NotFound _ => .NotFound
  | .Unauthorized _ => .Unauthorized
  | .Forbidden _ => .Forbidden
  | .Conflict _ => .Conflict
  | .Validation _ => .ValidationError
  | .OperationError _ _ => .OperationError

/- ===================== src/handlers/process.rs : exec_process_sync spawn failure ===================== -/

/- The cause of a failed `cmd.spawn()` (`std::io::ErrorKind`). -/
inductive SpawnErrorKind where
  | NotFound
  | Other (msg : String)
deriving DecidableEq, Repr

/- The `Err(e)` branch of `exec_process_sync`: a not-found spawn failure
   formats the `exec: "<cmd>": executable file not found in $PATH` stderr,
   any other failure carries the OS error text; either way the response
   data is `{stdout: "", stderr, exit_code: Some(127), …}` wrapped in an
   `OperationError` with empty message. -/
def exec_process_sync_spawn_failure (command : String) (e : SpawnErrorKind)
    (start_time end_time : String) (duration_ms : Nat) : AppError :=
  let stderr_message :=
    match e with
    | .NotFound =>
        "exec: \"" ++ command ++ "\": executable file not found in $PATH"
    | .Other m => m
  AppError.OperationError ""
    { stdout := "", stderr := stderr_message, exit_code := some 127,
      duration_ms := duration_ms, start_time := start_time,
      end_time := end_time }

/-- C8: a sync-exec spawn failure with a not-found cause yields an
operation-error whose wire status is 1600 and whose data carries
`exit_code = 127`, empty stdout, and stderr
`exec: "<cmd>": executable file not found in $PATH`. -/
theorem C8_sync_spawn_not_found_envelope :
    ∀ (command start_time end_time : String) (duration_ms : Nat),
      exec_process_sync_spawn_failure command SpawnErrorKind.NotFound
          start_time end_time duration_ms
        = AppError.OperationError ""
            { stdout := "",
              stderr := "exec: \"" ++ command
                ++ "\": executable file not found in $PATH",
              exit_code := some 127, duration_ms := duration_ms,
              start_time := start_time, end_time := end_time }
      ∧ (exec_process_sync_spawn_failure command SpawnErrorKind.NotFound
          start_time end_time duration_ms).status.code = 1600 := by
  intro command start_time end_time duration_ms
  exact ⟨rfl, rfl⟩

/- ===================== src/handlers/process.rs : kill_process and waiter ===================== -/

/- The mutable fields of `ProcessInfo` (src/state/process.rs) that the kill
   handler and the waiter touch; timestamps are abstract ticks. -/
structure ProcessRecord where
  pid : Option Nat
  command : String
  status : String
  end_time : Option Nat
  exit_code : Option Int
deriving DecidableEq, Repr

inductive Signal where
  | SIGTERM
  | SIGINT
  | SIGHUP
  | SIGKILL
deriving DecidableEq, Repr

/- Signal-name resolution in `kill_process`: the missing query parameter
   defaults to SIGKILL and unknown names also map to SIGKILL. -/
def parseSignal (signal_str : String) : Signal :=
  if signal_str = "SIGTERM" then .SIGTERM
  else if signal_str = "SIGINT" then .SIGINT
  else if signal_str = "SIGHUP" then .SIGHUP
  else .SIGKILL

/- `kill_process` (src/handlers/process.rs): conflict unless the record is
   `running`; 404 when the pid is already gone; deliver the signal
   (`killOk` is the outcome of the `nix::sys::signal::kill` syscall, whose
   formatted OS error we do not model); when the resolved signal is SIGKILL
   the handler itself sets the record status to `killed`.  Returns the
   updated record and the `success` flag of the response. -/
def kill_process (proc : ProcessRecord) (signalParam : Option String)
    (killOk : Bool) : Except AppError (ProcessRecord × Bool) :=
  if proc.status ≠ "running" then
    .error (.Conflict "Process is not running")
  else
    match proc.pid with
    | some _ =>
      if killOk then
        .ok ((if parseSignal (signalParam.getD "SIGKILL") = Signal.SIGKILL
              then { proc with status := "killed" }
              else proc),
             true)
      else .error (.InternalServerError "Failed to signal process")
    | none =>
      .error (.NotFound "Process PID not found (process might have exited)")

/-- C2 (counterexample): the claim that a successful kill leaves the
record's status unchanged for every signal is false: killing a running
process with the default signal (SIGKILL) rewrites its status to `killed`
inside the kill handler itself. -/
theorem C2_counterexample_sigkill_updates_status :
    kill_process
        { pid := some 42, command := "sleep 100", status := "running",
          end_time := none, exit_code := none } none true
      = Except.ok
          ({ pid := some 42, command := "sleep 100", status := "killed",
             end_time := none, exit_code := none }, true)
    ∧ ("killed" : String) ≠ "running" := by
  exact ⟨rfl, by decide⟩

/-- C2 (amended): a successful kill leaves `end_time`, `exit_code`, `pid`
and `command` unchanged and leaves `status` unchanged unless the resolved
signal is SIGKILL, in which case the handler sets it to `killed`; the
response flag is `true`.  (The waiter still performs its own terminal write
after `wait()` returns.) -/
theorem C2_kill_frame :
    ∀ (proc : ProcessRecord) (signalParam : Option String) (killOk : Bool)
      (proc' : ProcessRecord) (ok : Bool),
      kill_process proc signalParam killOk = .ok (proc', ok) →
      proc'.end_time = proc.end_time
      ∧ proc'.exit_code = proc.exit_code
      ∧ proc'.pid = proc.pid
      ∧ proc'.command = proc.command
      ∧ proc'.status =
          (if parseSignal (signalParam.getD "SIGKILL") = Signal.SIGKILL
           then "killed" else proc.status)
      ∧ ok = true := by
  intro proc sp killOk proc' ok h
  unfold kill_process at h
  split at h
  · cases h
  · split at h
    · split at h
      · rw [Except.ok.injEq, Prod.mk.injEq] at h
        obtain ⟨h1, h2⟩ := h
        subst h2
        by_cases hk : parseSignal (sp.getD "SIGKILL") = Signal.SIGKILL
        · rw [if_pos hk] at h1
          subst h1
          simp [hk]
        · rw [if_neg hk] at h1
          subst h1
          simp [hk]
      · cases h
    · cases h

/-- C2 (witness): the amended kill theorem applied to a concrete running
record with the default signal, its hypothesis discharged by computation. -/
theorem C2_witness :
    ({ pid := some 7, command := "sleep", status := "killed",
       end_time := none, exit_code := none } : ProcessRecord).end_time
        = ({ pid := some 7, command := "sleep", status := "running",
             end_time := none, exit_code := none } : ProcessRecord).end_time
    ∧ ({ pid := some 7, command := "sleep", status := "killed",
         end_time := none, exit_code := none } : ProcessRecord).exit_code
        = ({ pid := some 7, command := "sleep", status := "running",
             end_time := none, exit_code := none } : ProcessRecord).exit_code
    ∧ ({ pid := some 7, command := "sleep", status := "killed",
         end_time := none, exit_code := none } : ProcessRecord).pid
        = ({ pid := some 7, command := "sleep", status := "running",
             end_time := none, exit_code := none } : ProcessRecord).pid
    ∧ ({ pid := some 7, command := "sleep", status := "killed",
         end_time := none, exit_code := none } : ProcessRecord).command
        = ({ pid := some 7, command := "sleep", status := "running",
             end_time := none, exit_code := none } : ProcessRecord).command
    ∧ ({ pid := some 7, command := "sleep", status := "killed",
         end_time := none, exit_code := none } : ProcessRecord).status
        = (if parseSignal ((none : Option String).getD "SIGKILL")
              = Signal.SIGKILL
           then "killed"
           else ({ pid := some 7, command := "sleep", status := "running",
                   end_time := none, exit_code := none } : ProcessRecord).status)
    ∧ (true : Bool) = true :=
  C2_kill_frame
    { pid := some 7, command := "sleep", status := "running",
      end_time := none, exit_code := none } none true
    { pid := some 7, command := "sleep", status := "killed",
      end_time := none, exit_code := none } true rfl

/- ===================== src/handlers/session.rs : terminate_session ===================== -/

/- The fields of `SessionInfo` (src/state/session.rs) that terminate
   touches. -/
structure SessionRecord where
  pid : Option Nat
  shell : String
  cwd : String
  status : String
deriving DecidableEq, Repr

/- `terminate_session` (src/handlers/session.rs): no status precondition;
   when the pid is present, SIGKILL it (`killOk` is the syscall outcome),
   set status to `terminated` and reply `{success: true}`; 404 only when
   the pid is absent. -/
def terminate_session (sess : SessionRecord) (killOk : Bool) :
    Except AppError (SessionRecord × Bool) :=
  match sess.pid with
  | some _ =>
    if killOk then .ok ({ sess with status := "terminated" }, true)
    else .error (.InternalServerError "Failed to kill session")
  | none =>
    .error (.NotFound "Session PID not found (session might have exited)")

/-- C10: session terminate has no status precondition: for every session
record with a pid, a successful SIGKILL yields `{success: true}` with
status set to `terminated` regardless of the current status, and — unlike
process kill, which rejects non-running records with a conflict —
terminate can never return a conflict error. -/
theorem C10_terminate_no_status_precondition :
    (∀ (sess : SessionRecord) (p : Nat), sess.pid = some p →
        terminate_session sess true
          = .ok ({ sess with status := "terminated" }, true))
    ∧ (∀ (sess : SessionRecord) (killOk : Bool) (m : String),
        terminate_session sess killOk ≠ .error (.Conflict m))
    ∧ (∀ proc : ProcessRecord, proc.status ≠ "running" →
        kill_process proc none true
          = .error (.Conflict "Process is not running")) := by
  refine ⟨?_, ?_, ?_⟩
  · intro sess p h
    unfold terminate_session
    rw [h]
    rfl
  · intro sess killOk m
    unfold terminate_session
    cases hp : sess.pid with
    | some p => cases killOk <;> simp
    | none => simp
  · intro proc h
    unfold kill_process
    rw [if_pos h]

/-- C10 (witness): the terminate theorem applied to a session that is
already `terminated` (it still succeeds) and the contrast conjunct applied
to an already-killed process (kill conflicts). -/
theorem C10_witness :
    terminate_session
        { pid := some 9, shell := "/bin/bash", cwd := "/home/devbox/project",
          status := "terminated" } true
      = Except.ok
          ({ pid := some 9, shell := "/bin/bash",
             cwd := "/home/devbox/project", status := "terminated" }, true)
    ∧ terminate_session
        { pid := some 9, shell := "/bin/bash", cwd := "/home/devbox/project",
          status := "terminated" } true
        ≠ Except.error (AppError.Conflict "Process is not running")
    ∧ kill_process
        { pid := some 9, command := "sleep", status := "killed",
          end_time := none, exit_code := none } none true
      = Except.error (AppError.Conflict "Process is not running") :=
  ⟨C10_terminate_no_status_precondition.1
      { pid := some 9, shell := "/bin/bash", cwd := "/home/devbox/project",
        status := "terminated" } 9 rfl,
   C10_terminate_no_status_precondition.2.1
      { pid := some 9, shell := "/bin/bash", cwd := "/home/devbox/project",
        status := "terminated" } true "Process is not running",
   C10_terminate_no_status_precondition.2.2
      { pid := some 9, command := "sleep", status := "killed",
        end_time := none, exit_code := none } (by decide)⟩

/- ===================== src/utils/common.rs : shell_escape; spawn construction ===================== -/

def squote : Char := Char.ofNat 39

/- The characters `shell_escape` passes through unquoted:
   ASCII alphanumerics and `, . _ + : @ / -`. -/
def shellSafeChar (c : Char) : Bool :=
  c.isAlphanum || c == ',' || c == '.' || c == '_' || c == '+' || c == ':'
    || c == '@' || c == '/' || c == '-'

/- `shell_escape` from src/utils/common.rs: empty becomes two quotes; a
   string of safe characters passes through; otherwise single-quote the
   string, replacing each embedded single quote by quote-backslash-quote-
   quote. -/
def shell_escape (s : Str) : Str :=
  if s = [] then [squote, squote]
  else if s.all shellSafeChar then s
  else
    squote ::
      (s.flatMap (fun c =>
        if c == squote then [squote, '\\', squote, squote] else [c]))
      ++ [squote]

/- A constructed `tokio::process::Command`: program and argument list. -/
structure SpawnCmd where
  program : Str
  args : List Str
deriving DecidableEq, Repr

/- Rust `char::is_whitespace`: the Unicode White_Space property, i.e.
   U+0009..U+000D, U+0020, U+0085, U+00A0, U+1680, U+2000..U+200A, U+2028,
   U+2029, U+202F, U+205F and U+3000 (PropList.txt of Unicode 15). -/
def rustIsWhitespace (c : Char) : Bool :=
  (0x09 ≤ c.toNat && c.toNat ≤ 0x0D) || c.toNat == 0x20 || c.toNat == 0x85
    || c.toNat == 0xA0 || c.toNat == 0x1680
    || (0x2000 ≤ c.toNat && c.toNat ≤ 0x200A)
    || c.toNat == 0x2028 || c.toNat == 0x2029 || c.toNat == 0x202F
    || c.toNat == 0x205F || c.toNat == 0x3000

/- Rust `str::split_whitespace`: split on Unicode White_Space, keeping no
   empty tokens. -/
def splitWhitespace (s : Str) : List Str :=
  (s.foldr
    (fun c acc =>
      if rustIsWhitespace c then [] :: acc
      else
        match acc with
        | [] => [[c]]
        | w :: ws => (c :: w) :: ws)
    []).filter (· ≠ [])

/- The `shell -c` command string: the command followed by each argument,
   space-separated and shell-escaped. -/
def shellCommandString (command : Str) (args : Option (List Str)) : Str :=
  (args.getD []).foldl (fun acc a => acc ++ [' '] ++ shell_escape a) command

/- Spawn construction of `exec_process` (src/handlers/process.rs lines
   95-122): with a shell, `shell -c "<command> <escaped args>"`; without a
   shell but with args, exec the command with those args; with neither,
   split the command on whitespace when it has more than one token. -/
def build_command_exec (command : Str) (args : Option (List Str))
    (shell : Option Str) : SpawnCmd :=
  match shell with
  | some sh => ⟨sh, [str "-c", shellCommandString command args]⟩
  | none =>
    match args with
    | some a => ⟨command, a⟩
    | none =>
      match splitWhitespace command with
      | p :: q :: rest => ⟨p, q :: rest⟩
      | _ => ⟨command, []⟩

/- Spawn construction of `exec_process_sync` (src/handlers/process.rs lines
   439-457): identical shell branch, but without a shell the command string
   is always the program — there is no whitespace splitting. -/
def build_command_exec_sync (command : Str) (args : Option (List Str))
    (shell : Option Str) : SpawnCmd :=
  match shell with
  | some sh => ⟨sh, [str "-c", shellCommandString command args]⟩
  | none => ⟨command, args.getD []⟩

/-- C7 (counterexample): the claim that sync exec builds the child command
by the same construction as async exec is false for a whitespace command
with neither shell nor args: async exec splits `echo hi` into program
`echo` with argument `hi`, while sync exec spawns the whole string
`echo hi` as the program with no arguments. -/
theorem C7_counterexample_sync_does_not_split :
    build_command_exec (str "echo hi") none none
      = ⟨str "echo", [str "hi"]⟩
    ∧ build_command_exec_sync (str "echo hi") none none
      = ⟨str "echo hi", []⟩
    ∧ build_command_exec (str "echo hi") none none
      ≠ build_command_exec_sync (str "echo hi") none none := by
  refine ⟨?_, ?_, ?_⟩ <;> decide

/-- C7 (amended): the sync and async spawn constructions agree whenever a
shell is set, or args are provided, or the command has at most one
whitespace token; they differ exactly in the remaining case, where async
exec splits on whitespace and sync exec always spawns the unsplit command
string with no arguments. -/
theorem C7_sync_async_spawn_agreement :
    (∀ (command : Str) (args : Option (List Str)) (sh : Str),
        build_command_exec_sync command args (some sh)
          = build_command_exec command args (some sh))
    ∧ (∀ (command : Str) (a : List Str),
        build_command_exec_sync command (some a) none
          = build_command_exec command (some a) none)
    ∧ (∀ command : Str, (splitWhitespace command).length ≤ 1 →
        build_command_exec_sync command none none
          = build_command_exec command none none)
    ∧ (∀ command : Str,
        build_command_exec_sync command none none = ⟨command, []⟩) := by
  refine ⟨?_, ?_, ?_, ?_⟩
  · intro command args sh
    rfl
  · intro command a
    rfl
  · intro command h
    unfold build_command_exec build_command_exec_sync
    cases hw : splitWhitespace command with
    | nil => rfl
    | cons p rest =>
      cases rest with
      | nil => rfl
      | cons q rest' =>
        rw [hw] at h
        simp at h
  · intro command
    rfl

/-- C7 (witness): the agreement theorem's whitespace-free conjunct at the
concrete command `ls`, whose single token keeps both constructions equal. -/
theorem C7_witness :
    build_command_exec_sync (str "ls") none none
      = build_command_exec (str "ls") none none :=
  C7_sync_async_spawn_agreement.2.2.1 (str "ls") (by decide)
